import Mathlib

/-!
# The vICN dashboard core: dispatcher, query protocol, registry and update buffer

A shallow embedding of `www/js/server-event-dispatcher.js`, `www/js/query.js`,
`www/js/network.js` and of three functions of `qml/Viper/utils.js`.

Conventions of the embedding.

* A JavaScript object used as a dictionary (`callbacks`, `filter_dict`,
  `_map_id_name`, ...) is the finite map of its own properties, kept in
  insertion order: `Obj`.  A read of an absent property is `none`
  (JavaScript `undefined`).
* Effects on collaborators (the vis.js data sets, the view, the socket, the
  timers, the console) are recorded, in program order, in a log carried by
  the state; collaborators return normally.
* Handlers bound to the dispatcher are opaque values; an invocation
  `chain[i](query)` is recorded as the pair of the handler and its argument.
* Sockets and timers are named by positive handles; the state of the
  transport carries which sockets have not closed and which timers are
  pending, so that the events the environment can produce are determined.
* Strings are sequences of characters and numbers are exact integers.
-/

namespace Cicn

/-! ## JavaScript dictionaries -/

/-- Own properties of a JavaScript object, in insertion order. -/
abbrev Obj (α : Type) := List (String × α)

namespace Obj

/-- Property read `o[k]`; `none` stands for `undefined`. -/
def get {α : Type} : Obj α → String → Option α
  | [], _ => none
  | (k', v) :: rest, k => if k' = k then some v else get rest k

/-- Property write `o[k] = v`: overwrites in place, else appends a new property. -/
def set {α : Type} : Obj α → String → α → Obj α
  | [], k, v => [(k, v)]
  | (k', v') :: rest, k, v => if k' = k then (k, v) :: rest else (k', v') :: set rest k v

end Obj

/-! ## server-event-dispatcher.js : the subscription registry -/

/-- The part of a decoded frame that `dispatch` reads, with the rest of the frame as payload. -/
structure Message (P : Type) where
  action : String
  object_name : String
  payload : P
deriving DecidableEq, Repr

/-- The `callbacks` variable of `ServerEventsDispatcher`: key to chain of handlers. -/
abbrev Callbacks (H : Type) := Obj (List H)

/-- `this.bind(action, object_name, callback)`:
    `key = action + object_name; callbacks[key] = callbacks[key] || []; callbacks[key].push(callback)`. -/
def bind {H : Type} (callbacks : Callbacks H) (action object_name : String) (callback : H) :
    Callbacks H :=
  let key := action ++ object_name
  let chain := (callbacks.get key).getD []
  callbacks.set key (chain ++ [callback])

/-- `dispatch(query)`: the invocations `chain[i](query)` performed, in order.
    An absent chain returns at once. -/
def dispatch {H P : Type} (callbacks : Callbacks H) (query : Message P) : List (H × Message P) :=
  let key := query.action ++ query.object_name
  match callbacks.get key with
  | none => []
  | some chain => chain.map (fun h => (h, query))

/-- One recorded call of `bind`. -/
structure BindCall (H : Type) where
  action : String
  object_name : String
  callback : H
deriving DecidableEq, Repr

/-- The registry after a sequence of `bind` calls on a fresh dispatcher (`callbacks = {}`). -/
def bindAll {H : Type} (calls : List (BindCall H)) : Callbacks H :=
  calls.foldl (fun cb b => bind cb b.action b.object_name b.callback) []

/-! ## Values carried by frames -/

/-- Scalar JSON values found in frames: ids, names, filter values (numbers are integers). -/
inductive Val where
  | null
  | bool (b : Bool)
  | num (n : Int)
  | str (s : String)
deriving DecidableEq, Repr

/-- The property key a scalar turns into when it indexes a dictionary (`o[v]`). -/
def Val.toKey : Val → String
  | .null => "null"
  | .bool true => "true"
  | .bool false => "false"
  | .num n => toString n
  | .str s => s

/-- The property key of a possibly undefined index: `o[undefined]` reads the key "undefined". -/
def keyOf : Option Val → String
  | none => "undefined"
  | some v => v.toKey

/-- String conversion of a possibly undefined string operand of `+`. -/
def strOf : Option String → String
  | none => "undefined"
  | some s => s

/-- A slot that holds `undefined`, `null` or a value. -/
inductive JSOpt (α : Type) where
  | undefined
  | null
  | val (a : α)
deriving DecidableEq, Repr

/-- Default parameter value: the default replaces an argument that is `undefined`
    (omitted), and nothing else. -/
def JSOpt.orDefault {α : Type} (arg dflt : JSOpt α) : JSOpt α :=
  match arg with
  | .undefined => dflt
  | other => other

/-- One filter predicate `[key, op, value]`. -/
structure Triple where
  key : String
  op : String
  value : Val
deriving DecidableEq, Repr

/-! ## query.js -/

/-- A `Query` instance: the properties assigned by `init`.  There is no `_fields`
    property: no method assigns it. -/
structure Query where
  _action : String
  _object_name : String
  _filter : JSOpt (List Triple)
  _params : JSOpt (Obj Val)
  _field_names : JSOpt (List String)
  _last : JSOpt Bool
deriving DecidableEq, Repr

/-- `init(action, object_name, filter = null, params = null, field_names = null, last = false)`. -/
def Query.init (action object_name : String) (filter : JSOpt (List Triple))
    (params : JSOpt (Obj Val)) (field_names : JSOpt (List String)) (last : JSOpt Bool) : Query :=
  { _action := action
    _object_name := object_name
    _filter := filter.orDefault .null
    _params := params.orDefault .null
    _field_names := field_names.orDefault .null
    _last := last.orDefault (.val false) }

/-- The dictionary returned by `to_dict`. -/
structure QueryDict where
  action : String
  object_name : String
  filter : JSOpt (List Triple)
  params : JSOpt (Obj Val)
  fields : JSOpt (List String)
  last : JSOpt Bool
deriving DecidableEq, Repr

/-- `to_dict()`.  The entry 'fields' reads `this._fields`, a property the instance
    does not have, hence `undefined`. -/
def Query.to_dict (self : Query) : QueryDict :=
  { action := self._action
    object_name := self._object_name
    filter := self._filter
    params := self._params
    fields := .undefined
    last := self._last }

/-! ## network.js -/

/-- `COORDINATE_SCALE`. -/
def COORDINATE_SCALE : Int := 50

/-- `DIR`. -/
def DIR : String := "img/"

/-- The node object `on_insert_node` builds (font, shape, size, physics and
    has_producer are constants of the source and are left out). -/
structure NodeItem where
  id : Val
  x : Int
  y : Int
  image : String
deriving DecidableEq, Repr

/-- The node object `on_update_node` builds; `id = none` is an undefined id. -/
structure NodeMut where
  id : Option Val
  image : String
deriving DecidableEq, Repr

/-- Display attributes of an edge object.  `plain`: width `EDGE_WIDTH_MIN`, color `GRAY`,
    font color `RED`, with or without dashes.  `rate`: color, width and label computed by
    `on_update_channel` from the two measured rates (floating point, d3 scales); kept
    symbolic. -/
inductive EdgeStyle where
  | plain (dashes : Bool)
  | rate (bw_upstream : Val) (bw_downstream : Option Val)
deriving DecidableEq, Repr

/-- The edge object built by `on_insert_channel` and `on_update_channel`. -/
structure EdgeMut where
  id : Val
  from_id : Option Val
  to_id : Option Val
  style : EdgeStyle
deriving DecidableEq, Repr

/-- Calls made on the collaborators, in program order. -/
inductive Effect where
  | nodes_add (node : NodeItem)
  | edges_update (batch : List EdgeMut)
  | nodes_update (batch : List NodeMut)
  | network_fit
  | server_send (query : QueryDict)
  | console_log (text : String)
deriving DecidableEq, Repr

/-- The mutable fields of a `Network` instance, and the log of its calls. -/
structure Network where
  _map_interface_node : Obj Val
  _map_id_name : Obj String
  _map_name_id : Obj Val
  _edgesInfo : Obj (Option Val)
  _pending_edges : List EdgeMut
  _pending_nodes : List NodeMut
  log : List Effect
deriving DecidableEq, Repr

/-- The fields as `init` leaves them. -/
def Network.init : Network :=
  { _map_interface_node := []
    _map_id_name := []
    _map_name_id := []
    _edgesInfo := []
    _pending_edges := []
    _pending_nodes := []
    log := [] }

/-- `_tick()`: `_edges.update(_pending_edges); _pending_edges.length = 0;
    _nodes.update(_pending_nodes); _pending_nodes.length = 0`. -/
def Network._tick (self : Network) : Network :=
  { self with
    log := self.log ++ [.edges_update self._pending_edges, .nodes_update self._pending_nodes]
    _pending_edges := []
    _pending_nodes := [] }

/-- `params` of an insert-node frame. -/
structure InsertNodeParams where
  id : Val
  name : String
  interfaces : Option (List String)
  x : Int
  y : Int
  category : String
  groups : List String
deriving DecidableEq, Repr

/-- An insert-node frame. -/
structure InsertNodeQuery where
  params : InsertNodeParams
  last : Bool
deriving DecidableEq, Repr

/-- `on_insert_node(query)`. -/
def Network.on_insert_node (self : Network) (query : InsertNodeQuery) : Network :=
  let data := query.params
  let map_interface_node :=
    match data.interfaces with
    | none => self._map_interface_node
    | some interfaces => interfaces.foldl (fun m i => m.set i data.id) self._map_interface_node
  let node : NodeItem :=
    { id := data.id
      x := data.x * COORDINATE_SCALE
      y := data.y * COORDINATE_SCALE
      image := DIR ++ data.category ++ ".png" }
  let log1 := if data.groups.length > 0 then self.log ++ [.nodes_add node] else self.log
  let log2 :=
    if query.last then
      log1 ++ [.network_fit,
        .server_send (Query.init "select" "channel" .undefined .undefined .undefined
          .undefined).to_dict]
    else log1
  { self with
    _map_interface_node := map_interface_node
    _map_id_name := self._map_id_name.set data.id.toKey data.name
    _map_name_id := self._map_name_id.set data.name data.id
    log := log2 }

/-- An update-node frame: `params.category` and the filter list. -/
structure UpdateNodeQuery where
  category : String
  filter : List Triple
deriving DecidableEq, Repr

/-- The `filter_dict` of `on_update_node`: the `forEach` over the filter list keeps the
    triples whose operator is '==', a later one overwriting an earlier one on the same key. -/
def filter_dict (filter : List Triple) : Obj Val :=
  filter.foldl (fun d t => if t.op = "==" then d.set t.key t.value else d) []

/-- `on_update_node(query)`. -/
def Network.on_update_node (self : Network) (query : UpdateNodeQuery) : Network :=
  let d := filter_dict query.filter
  let image := DIR ++ query.category ++ ".png"
  match d.get "id" with
  | none =>
    match d.get "name" with
    | none => { self with log := self.log ++ [.console_log "Wrong update query"] }
    | some name =>
      { self with
        _pending_nodes :=
          self._pending_nodes ++ [{ id := self._map_name_id.get name.toKey, image := image }] }
  | some id =>
    { self with _pending_nodes := self._pending_nodes ++ [{ id := some id, image := image }] }

/-- `s.indexOf(pat) !== -1` on strings. -/
def indexOf_found (s pat : String) : Bool :=
  s.data.tails.any (fun t => pat.data.isPrefixOf t)

/-- `params` of an insert-channel frame (`type` is `channel_type`). -/
structure InsertChannelParams where
  id : Val
  channel_type : String
  src_node : Option Val
  dst_node : Option Val
  src : Option Val
  dst : Option Val
  capacity : Option Val
  stations : Option (List Val)
  name : Option String
  ap : Option Val
deriving DecidableEq, Repr

/-- The edge objects `on_insert_channel` builds, in the order it pushes them. -/
def Network.on_insert_channel_edges (self : Network) (data : InsertChannelParams) :
    List EdgeMut :=
  if indexOf_found data.channel_type "wiredchannel" || indexOf_found data.channel_type "link"
      || indexOf_found data.channel_type "phylink"
      || indexOf_found data.channel_type "memiflink" then
    if indexOf_found data.channel_type "link" || indexOf_found data.channel_type "memiflink" then
      [{ id := data.id, from_id := data.src_node, to_id := data.dst_node, style := .plain false }]
    else
      [{ id := data.id
         from_id := self._map_interface_node.get (keyOf data.src)
         to_id := self._map_interface_node.get (keyOf data.dst)
         style := .plain false }]
  else if indexOf_found data.channel_type "emulatedchannel" then
    match data.stations with
    | none => []
    | some stations =>
      stations.map (fun station =>
        { id := .str ("tap-" ++ strOf (self._map_id_name.get station.toKey) ++ "-"
            ++ strOf data.name)
          from_id := some station
          to_id := data.ap
          style := .plain true })
  else []

/-- `on_insert_channel(query)`: each edge object is pushed on `_pending_edges` and its
    capacity recorded in `_edgesInfo`. -/
def Network.on_insert_channel (self : Network) (data : InsertChannelParams) : Network :=
  (self.on_insert_channel_edges data).foldl
    (fun s edgeu =>
      { s with
        _pending_edges := s._pending_edges ++ [edgeu]
        _edgesInfo := s._edgesInfo.set edgeu.id.toKey data.capacity })
    self

/-- An update-channel frame. -/
structure UpdateChannelQuery where
  bw_upstream : Option Val
  bw_downstream : Option Val
  filter : List Triple
deriving DecidableEq, Repr

/-- `on_update_channel(query)`: returns at once when `bw_upstream` is undefined; reading
    `query.filter[0][2]` of an empty filter list is a TypeError. -/
def Network.on_update_channel (self : Network) (query : UpdateChannelQuery) :
    Except String Network :=
  match query.bw_upstream with
  | none => .ok self
  | some up =>
    match query.filter with
    | [] => .error "TypeError"
    | first :: _ =>
      .ok { self with
            _pending_edges := self._pending_edges ++
              [{ id := first.value, from_id := none, to_id := none,
                 style := .rate up query.bw_downstream }] }

/-- A frame routed to the handler `Network.init` binds for it. -/
inductive Event where
  | insert_node (query : InsertNodeQuery)
  | update_node (query : UpdateNodeQuery)
  | insert_channel (data : InsertChannelParams)
  | update_channel (query : UpdateChannelQuery)
deriving DecidableEq, Repr

/-- One frame handled; a handler that throws leaves the fields as they were when it threw. -/
def Network.handle (self : Network) : Event → Network
  | .insert_node q => self.on_insert_node q
  | .update_node q => self.on_update_node q
  | .insert_channel d => self.on_insert_channel d
  | .update_channel q =>
    match self.on_update_channel q with
    | .ok s => s
    | .error _ => self

/-- The node mutations the handler of a frame appends to `_pending_nodes`: the entries
    that follow the ones that were pending before. -/
def Network.appended_nodes (self : Network) (e : Event) : List NodeMut :=
  (self.handle e)._pending_nodes.drop self._pending_nodes.length

/-- The edge mutations the handler of a frame appends to `_pending_edges`. -/
def Network.appended_edges (self : Network) (e : Event) : List EdgeMut :=
  (self.handle e)._pending_edges.drop self._pending_edges.length

/-- The node mutations enqueued while a sequence of frames is handled, in enqueue order. -/
def Network.enqueued_nodes (self : Network) : List Event → List NodeMut
  | [] => []
  | e :: es => self.appended_nodes e ++ (self.handle e).enqueued_nodes es

/-- The edge mutations enqueued while a sequence of frames is handled, in enqueue order. -/
def Network.enqueued_edges (self : Network) : List Event → List EdgeMut
  | [] => []
  | e :: es => self.appended_edges e ++ (self.handle e).enqueued_edges es

/-- The batch calls on the two data sets. -/
def Effect.is_batch : Effect → Bool
  | .edges_update _ => true
  | .nodes_update _ => true
  | _ => false

/-! ## server-event-dispatcher.js : the transport -/

/-- `var timeoutInterval = 2; /* s */`: a local variable of the constructor. -/
def timeoutInterval : Nat := 2

/-- The property read `self.timeoutInterval` (`self = this`, the dispatcher object).  The
    constructor assigns the properties `open`, `bind` and `send` only; `timeoutInterval`
    is a local variable, so the read gives `undefined` (`none`). -/
def self_timeoutInterval : Option Nat := none

/-- Calls made by the dispatcher, in program order.  Sockets and timers are named by the
    handles the environment hands out; a handler call records the value `is_open` has
    when the call is made. -/
inductive TEffect (H P : Type) where
  | new_WebSocket (sock : Nat)
  | call (handler : H) (query : Message (Option P)) (is_open : Bool)
  | setTimeout (timer : Nat) (delay : Option Nat)
  | clearTimeout (timer : Nat)
  | ws_send (sock : Nat) (query : QueryDict)
deriving DecidableEq, Repr

/-- The variables of a `ServerEventsDispatcher` (`callbacks`, `is_open`, `timeout`, `ws`),
    the state of its environment (`live`: the sockets created whose close event has not
    fired; `pending`: the timers set that have neither fired nor been cleared;
    `next_handle`: the next handle, handles being positive) and the trace of its calls. -/
structure ServerEventsDispatcher (H P : Type) where
  callbacks : Callbacks H
  is_open : Bool
  timeout : Option Nat
  ws : Option Nat
  live : List Nat
  pending : List Nat
  next_handle : Nat
  trace : List (TEffect H P)
deriving DecidableEq, Repr

namespace ServerEventsDispatcher

/-- The internal `dispatch(query)` on the dispatcher state: the handler calls are traced. -/
def dispatch {H P : Type} (self : ServerEventsDispatcher H P) (query : Message (Option P)) :
    ServerEventsDispatcher H P :=
  { self with
    trace := self.trace ++
      (Cicn.dispatch self.callbacks query).map (fun c => TEffect.call c.1 c.2 self.is_open) }

/-- `this.open()`: `ws = new WebSocket(url)` and the three handlers are attached to it. -/
def open_ {H P : Type} (self : ServerEventsDispatcher H P) : ServerEventsDispatcher H P :=
  { self with
    ws := some self.next_handle
    live := self.live ++ [self.next_handle]
    next_handle := self.next_handle + 1
    trace := self.trace ++ [.new_WebSocket self.next_handle] }

/-- The constructor: `callbacks = {}`, `is_open = false`, `timeout = null`, `ws = null`,
    then `this.open()`. -/
def construct (H P : Type) : ServerEventsDispatcher H P :=
  open_
    { callbacks := []
      is_open := false
      timeout := none
      ws := none
      live := []
      pending := []
      next_handle := 1
      trace := [] }

/-- `ws.onmessage`: the parsed frame is dispatched. -/
def onmessage {H P : Type} (self : ServerEventsDispatcher H P) (json : Message (Option P)) :
    ServerEventsDispatcher H P :=
  self.dispatch json

/-- `ws.onclose` of the socket `sock`: `is_open = false`, the connectivity delete event
    is dispatched, then `timeout = setTimeout(function() { self.open(); },
    self.timeoutInterval)`. -/
def onclose {H P : Type} (self : ServerEventsDispatcher H P) (sock : Nat) :
    ServerEventsDispatcher H P :=
  let s1 := { self with is_open := false, live := self.live.filter (fun x => x ≠ sock) }
  let s2 := s1.dispatch ⟨"delete", "local.connection", none⟩
  { s2 with
    timeout := some s2.next_handle
    pending := s2.pending ++ [s2.next_handle]
    next_handle := s2.next_handle + 1
    trace := s2.trace ++ [.setTimeout s2.next_handle self_timeoutInterval] }

/-- `ws.onopen`: `if (timeout) clearTimeout(timeout)`, `is_open = true`, then the
    connectivity insert event is dispatched. -/
def onopen {H P : Type} (self : ServerEventsDispatcher H P) : ServerEventsDispatcher H P :=
  let s1 : ServerEventsDispatcher H P :=
    match self.timeout with
    | none => self
    | some t =>
      { self with
        pending := self.pending.filter (fun x => x ≠ t)
        trace := self.trace ++ [TEffect.clearTimeout t] }
  let s2 := { s1 with is_open := true }
  s2.dispatch ⟨"insert", "local.connection", none⟩

/-- The timer `t` fires: its callback calls `self.open()`. -/
def on_timeout {H P : Type} (self : ServerEventsDispatcher H P) (t : Nat) :
    ServerEventsDispatcher H P :=
  open_ { self with pending := self.pending.filter (fun x => x ≠ t) }

/-- `this.bind(action, object_name, callback)` on the dispatcher state. -/
def bind {H P : Type} (self : ServerEventsDispatcher H P) (action object_name : String)
    (callback : H) : ServerEventsDispatcher H P :=
  { self with callbacks := Cicn.bind self.callbacks action object_name callback }

/-- `this.send(query)`: `ws.send(JSON.stringify(query)); return this`.  Neither `is_open`
    nor any other state is read; with `ws` still null the call is a TypeError. -/
def send {H P : Type} (self : ServerEventsDispatcher H P) (query : QueryDict) :
    Except String (ServerEventsDispatcher H P) :=
  match self.ws with
  | none => .error "TypeError"
  | some sock => .ok { self with trace := self.trace ++ [.ws_send sock query] }

end ServerEventsDispatcher

/-- What can happen to a dispatcher: events of its sockets and timers, and calls of its
    three methods. -/
inductive TransportEvent (H P : Type) where
  | ws_onopen (sock : Nat)
  | ws_onclose (sock : Nat)
  | ws_onmessage (sock : Nat) (json : Message (Option P))
  | timer (t : Nat)
  | call_open
  | call_send (query : QueryDict)
  | call_bind (action object_name : String) (callback : H)
deriving DecidableEq, Repr

/-- One event; `none` when the environment cannot produce it (an event of a socket that
    has closed or was never created, a timer that is not pending).  A `send` that throws
    leaves the state as it was. -/
def ServerEventsDispatcher.step {H P : Type} (self : ServerEventsDispatcher H P) :
    TransportEvent H P → Option (ServerEventsDispatcher H P)
  | .ws_onopen sock => if sock ∈ self.live then some self.onopen else none
  | .ws_onclose sock => if sock ∈ self.live then some (self.onclose sock) else none
  | .ws_onmessage sock json => if sock ∈ self.live then some (self.onmessage json) else none
  | .timer t => if t ∈ self.pending then some (self.on_timeout t) else none
  | .call_open => some self.open_
  | .call_send query =>
    match self.send query with
    | .ok s => some s
    | .error _ => some self
  | .call_bind action object_name callback => some (self.bind action object_name callback)

/-- A sequence of events, from a state. -/
def ServerEventsDispatcher.run {H P : Type} (self : ServerEventsDispatcher H P) :
    List (TransportEvent H P) → Option (ServerEventsDispatcher H P)
  | [] => some self
  | e :: es =>
    match self.step e with
    | none => none
    | some s => s.run es

/-- The calls `setTimeout` of a trace. -/
def TEffect.is_setTimeout {H P : Type} : TEffect H P → Bool
  | .setTimeout _ _ => true
  | _ => false

/-- The calls `ws.send` of a trace. -/
def TEffect.is_ws_send {H P : Type} : TEffect H P → Bool
  | .ws_send _ _ => true
  | _ => false

/-- The table `namedHtml` of `htmlEscaped`. -/
def namedHtml : Obj String :=
  [("38", "&amp;"), ("60", "&lt;"), ("62", "&gt;"), ("34", "&quot;"), ("160", "&nbsp;"),
    ("162", "&cent;"), ("163", "&pound;"), ("164", "&curren;"), ("169", "&copy;"),
    ("174", "&reg;")]

/-- One turn of the loop of `htmlEscaped` on the character `ch`; the state is `escaped`
    and `wasNewLine`. -/
def htmlEscaped_step (st : String × Nat) (ch : Char) : String × Nat :=
  let c := ch.toNat
  match namedHtml.get (toString c) with
  | some es => (st.1 ++ es, 0)
  | none =>
    if c = 13 ∨ c = 10 then
      (if st.2 = 0 then st.1 ++ "<br>" else st.1, st.2 + 1)
    else
      (st.1 ++ String.singleton ch, 0)

/-- `htmlEscaped(s)`: the empty string is returned at once, else the loop runs over the
    characters. -/
def htmlEscaped (s : String) : String :=
  if s = "" then "" else (s.data.foldl htmlEscaped_step ("", 0)).1

/-- CR or LF. -/
def isNewLine (ch : Char) : Bool :=
  ch.toNat = 13 || ch.toNat = 10

/-- What a stretch of the input contributes to the output. -/
inductive Piece where
  | br
  | entity (es : String)
  | plain (ch : Char)
deriving DecidableEq, Repr

/-- The text of a piece. -/
def Piece.text : Piece → String
  | .br => "<br>"
  | .entity es => es
  | .plain ch => String.singleton ch

/-- The entities among the pieces. -/
def Piece.is_entity : Piece → Bool
  | .entity _ => true
  | _ => false

/-- The contributions of the input, as the description of the escaping gives them: a
    maximal run of CR/LF characters contributes one "<br>", a character of the table its
    entity, any other character itself. -/
def htmlPieces : List Char → List Piece
  | [] => []
  | ch :: rest =>
    if isNewLine ch then
      .br :: htmlPieces (rest.dropWhile isNewLine)
    else
      match namedHtml.get (toString ch.toNat) with
      | some es => .entity es :: htmlPieces rest
      | none => .plain ch :: htmlPieces rest
termination_by l => l.length
decreasing_by
  all_goals simp_wf
  · exact Nat.lt_succ_of_le (List.dropWhile_suffix _).length_le

/-- The search of `indexOf`: the first index, from `k` on, at which `search` starts in
    what remains of the string; `search` may start at the very end when it is empty. -/
def indexOf_from (search : List Char) : List Char → Nat → Option Nat
  | [], k => if search = [] then some k else none
  | c :: rest, k =>
    if search.isPrefixOf (c :: rest) then some k else indexOf_from search rest (k + 1)

/-- `s.indexOf(search, position)`: the position is clamped to `0 .. s.length`, and the
    result is -1 when the search fails. -/
def String_indexOf (s search : String) (position : Int) : Int :=
  let start := (min (max position 0) s.length).toNat
  match indexOf_from search.data (s.data.drop start) start with
  | some k => k
  | none => -1

/-- `String.prototype.endsWith`:
    `this.indexOf(suffix, this.length - suffix.length) !== -1`. -/
def endsWith (self suffix : String) : Bool :=
  String_indexOf self suffix ((self.length : Int) - (suffix.length : Int)) != -1

/-- The output the pieces stand for: their texts, one after the other. -/
def render : List Piece → String
  | [] => ""
  | p :: ps => p.text ++ render ps

/-- The character of a piece that copies one. -/
def Piece.plain_char : Piece → Option Char
  | .plain ch => some ch
  | _ => none

/-- A character that is neither CR/LF nor in the table. -/
def isOrdinary (ch : Char) : Bool :=
  !isNewLine ch && (namedHtml.get (toString ch.toNat)).isNone

/-- What is required of a piece: a "<br>", an entity of the table, or a copied character
    that is none of the double quote, '<', '>', '&', CR and LF. -/
def Piece.good : Piece → Prop
  | .br => True
  | .entity es => es ∈ namedHtml.map Prod.snd
  | .plain ch => ch ≠ '"' ∧ ch ≠ '<' ∧ ch ≠ '>' ∧ ch ≠ '&' ∧ isNewLine ch = false

/-! # Theorems -/

/-! ## Lemmas on dictionaries -/

theorem Obj.get_set_self {α : Type} (o : Obj α) (k : String) (v : α) :
    (o.set k v).get k = some v := by
  induction o with
  | nil => simp [Obj.set, Obj.get]
  | cons p rest ih =>
    obtain ⟨k', v'⟩ := p
    by_cases h : k' = k
    · simp [Obj.set, Obj.get, h]
    · simp [Obj.set, Obj.get, h, ih]

theorem Obj.get_set_other {α : Type} (o : Obj α) (k k2 : String) (v : α) (hne : k ≠ k2) :
    (o.set k v).get k2 = o.get k2 := by
  induction o with
  | nil => simp [Obj.set, Obj.get, hne]
  | cons p rest ih =>
    obtain ⟨k', v'⟩ := p
    by_cases h : k' = k
    · subst h
      simp [Obj.set, Obj.get, hne]
    · by_cases h2 : k' = k2
      · subst h2
        simp [Obj.set, Obj.get, h]
      · simp [Obj.set, Obj.get, h, h2, ih]

/-! ## Dispatcher -/

/-- The chain stored under a key after a sequence of binds: the callbacks of the binds
    with that key, in bind order, appended to what was stored before. -/
theorem get_foldl_bind {H : Type} (calls : List (BindCall H)) (cb : Callbacks H) (key : String) :
    ((calls.foldl (fun cb b => bind cb b.action b.object_name b.callback) cb).get key).getD [] =
      (cb.get key).getD [] ++
        (calls.filter (fun b => b.action ++ b.object_name = key)).map (fun b => b.callback) := by
  induction calls generalizing cb with
  | nil => simp
  | cons b rest ih =>
    simp only [List.foldl_cons]
    rw [ih]
    by_cases h : b.action ++ b.object_name = key
    · subst h
      simp [bind, Obj.get_set_self, List.filter_cons]
    · simp [bind, Obj.get_set_other _ _ _ _ h, List.filter_cons, h]

/-- A key is present in the registry exactly when some bind call carried it. -/
theorem get_foldl_bind_none {H : Type} (calls : List (BindCall H)) (cb : Callbacks H)
    (key : String) :
    (calls.foldl (fun cb b => bind cb b.action b.object_name b.callback) cb).get key = none ↔
      cb.get key = none ∧ ∀ b ∈ calls, b.action ++ b.object_name ≠ key := by
  induction calls generalizing cb with
  | nil => simp
  | cons b rest ih =>
    simp only [List.foldl_cons]
    rw [ih]
    by_cases h : b.action ++ b.object_name = key
    · subst h
      simp [bind, Obj.get_set_self]
    · simp [bind, Obj.get_set_other _ _ _ _ h, h]

/-- The invocations of `dispatch` after a sequence of binds on a fresh dispatcher. -/
theorem dispatch_bindAll_eq {H P : Type} (calls : List (BindCall H)) (m : Message P) :
    dispatch (bindAll calls) m =
      ((calls.filter (fun b => b.action ++ b.object_name = m.action ++ m.object_name)).map
        (fun b => (b.callback, m))) := by
  have key := get_foldl_bind calls ([] : Callbacks H) (m.action ++ m.object_name)
  simp only [Obj.get, Option.getD_none, List.nil_append] at key
  simp only [dispatch, bindAll]
  cases hget : (calls.foldl (fun cb b => bind cb b.action b.object_name b.callback)
      ([] : Callbacks H)).get (m.action ++ m.object_name) with
  | none =>
    have hnone := (get_foldl_bind_none calls [] _).1 hget
    have : calls.filter (fun b => b.action ++ b.object_name = m.action ++ m.object_name) = [] := by
      rw [List.filter_eq_nil_iff]
      intro b hb
      simpa using hnone.2 b hb
    simp [this]
  | some chain =>
    rw [hget] at key
    simp only [Option.getD_some] at key
    simp [key, List.map_map, Function.comp_def]

/-- Two concatenations with left parts of equal length agree part by part. -/
theorem append_key_inj (a1 k1 a2 k2 : String) (h : a1 ++ k1 = a2 ++ k2)
    (hl : a1.length = a2.length) : a1 = a2 ∧ k1 = k2 := by
  have h' := congrArg String.data h
  simp only [String.data_append] at h'
  have hl' : a1.data.length = a2.data.length := hl
  have hparts := List.append_inj h' hl'
  exact ⟨String.ext hparts.1, String.ext hparts.2⟩

/-- C2 as stated fails: the registry key is the concatenation `action + object_name`, so
    a handler bound under ("insert", "node") is invoked by a message with action "insertn"
    and object_name "ode". -/
theorem bind_pair_key_counterexample :
    ¬ (∀ (a1 k1 a2 k2 : String) (h : Nat),
        (h, (⟨a2, k2, ()⟩ : Message Unit)) ∈ dispatch (bind [] a1 k1 h) ⟨a2, k2, ()⟩ →
          a1 = a2 ∧ k1 = k2) := by
  intro hall
  have hpair := hall "insert" "node" "insertn" "ode" 0 (by decide)
  exact absurd hpair.1 (by decide)

/-- C2, amended: every invocation made by `dispatch` comes from a bind call whose
    concatenated key `action + object_name` equals that of the message; when the two
    actions have the same length, the actions are equal and the object names are equal. -/
theorem dispatch_only_matching_key {H P : Type} (calls : List (BindCall H)) (m : Message P)
    (h : H) (hin : (h, m) ∈ dispatch (bindAll calls) m) :
    ∃ b ∈ calls, b.callback = h ∧
      b.action ++ b.object_name = m.action ++ m.object_name ∧
      (b.action.length = m.action.length →
        b.action = m.action ∧ b.object_name = m.object_name) := by
  rw [dispatch_bindAll_eq calls m] at hin
  simp only [List.mem_map, List.mem_filter, decide_eq_true_eq, Prod.mk.injEq] at hin
  obtain ⟨b, ⟨hb, hkey⟩, hcb, -⟩ := hin
  exact ⟨b, hb, hcb, hkey, fun hl => append_key_inj _ _ _ _ hkey hl⟩

/-- C2, amended, at a concrete registry: the handler bound under ("insert", "node") is
    invoked by an ("insert", "node") message, and its bind call has that very pair. -/
theorem dispatch_only_matching_key_witness :
    ∃ b ∈ [(⟨"insert", "node", 7⟩ : BindCall Nat), ⟨"update", "node", 8⟩], b.callback = 7 ∧
      b.action ++ b.object_name = "insert" ++ "node" ∧
      (b.action.length = "insert".length → b.action = "insert" ∧ b.object_name = "node") :=
  dispatch_only_matching_key [⟨"insert", "node", 7⟩, ⟨"update", "node", 8⟩]
    (⟨"insert", "node", ()⟩ : Message Unit) 7 (by decide)

/-! ## Resolution of update targets -/

/-- The value `filter_dict` holds for a key: that of the last '==' triple on the key. -/
theorem filter_dict_get (f : List Triple) (k : String) :
    (filter_dict f).get k =
      ((f.filter (fun t => decide (t.op = "==") && decide (t.key = k))).getLast?).map
        (fun t => t.value) := by
  induction f using List.reverseRecOn with
  | nil => simp [filter_dict, Obj.get]
  | append_singleton l t ih =>
    unfold filter_dict at ih ⊢
    rw [List.foldl_append, List.filter_append, List.getLast?_append]
    simp only [List.foldl_cons, List.foldl_nil]
    by_cases hop : t.op = "=="
    · by_cases hk : t.key = k
      · subst hk
        simp [hop, Obj.get_set_self, List.filter_cons]
      · simp [hop, hk, Obj.get_set_other _ _ _ _ hk, ih, List.filter_cons]
    · simp [hop, ih, List.filter_cons]

/-- The key of a '==' triple that no later '==' triple on the same key follows holds
    the value of that triple. -/
theorem filter_dict_get_last (pre post : List Triple) (k : String) (v : Val)
    (hpost : ∀ t ∈ post, ¬ (t.op = "==" ∧ t.key = k)) :
    (filter_dict (pre ++ ⟨k, "==", v⟩ :: post)).get k = some v := by
  rw [filter_dict_get, List.filter_append, List.filter_cons]
  have hnil : post.filter (fun t => decide (t.op = "==") && decide (t.key = k)) = [] := by
    rw [List.filter_eq_nil_iff]
    intro t ht
    simpa using hpost t ht
  simp [hnil]

/-- C3 as stated fails: with the filter list `[["id","==",5],["id","==",6]]` the list
    contains the equality triple on "id" with value 5, and the mutation appended has id 6. -/
theorem update_node_id_counterexample :
    ¬ (∀ (self : Network) (query : UpdateNodeQuery) (v : Val),
        (⟨"id", "==", v⟩ : Triple) ∈ query.filter →
          ∃ m, (self.on_update_node query)._pending_nodes = self._pending_nodes ++ [m] ∧
            m.id = some v) := by
  intro hall
  obtain ⟨m, hm, hid⟩ := hall Network.init
    ⟨"router", [⟨"id", "==", .num 5⟩, ⟨"id", "==", .num 6⟩]⟩ (.num 5) (by decide)
  have hpend : (Network.init.on_update_node
      ⟨"router", [⟨"id", "==", .num 5⟩, ⟨"id", "==", .num 6⟩]⟩)._pending_nodes =
      [⟨some (.num 6), "img/router.png"⟩] := by decide
  rw [hpend] at hm
  simp only [Network.init, List.nil_append, List.cons.injEq, and_true] at hm
  rw [← hm] at hid
  exact absurd hid (by decide)

/-- C3, amended: when the filter list contains an equality triple ("id", "==", v) that no
    later equality triple on "id" follows, whatever the other triples are, `on_update_node`
    appends to the pending node sequence one mutation, whose id is v, and changes nothing
    else. -/
theorem on_update_node_id (self : Network) (category : String) (pre post : List Triple)
    (v : Val) (hpost : ∀ t ∈ post, ¬ (t.op = "==" ∧ t.key = "id")) :
    self.on_update_node ⟨category, pre ++ ⟨"id", "==", v⟩ :: post⟩ =
      { self with
        _pending_nodes :=
          self._pending_nodes ++ [{ id := some v, image := DIR ++ category ++ ".png" }] } := by
  simp only [Network.on_update_node, filter_dict_get_last pre post "id" v hpost]

/-- C3, amended, on the list `[["name","==","n1"],["id","==",5],["id","<",9]]`. -/
theorem on_update_node_id_witness :
    Network.init.on_update_node
        ⟨"router", [⟨"name", "==", .str "n1"⟩] ++ ⟨"id", "==", .num 5⟩ :: [⟨"id", "<", .num 9⟩]⟩ =
      { Network.init with
        _pending_nodes :=
          Network.init._pending_nodes ++ [{ id := some (.num 5), image := DIR ++ "router" ++ ".png" }] } :=
  on_update_node_id Network.init "router" [⟨"name", "==", .str "n1"⟩] [⟨"id", "<", .num 9⟩]
    (.num 5) (by decide)

/-- C7: the entries action, object_name, filter, params and last of `to_dict()` are the
    constructor arguments, an omitted (undefined) optional argument giving null for
    filter and params and false for last; so `Query("select", "node")` gives filter null,
    params null and last false. -/
theorem to_dict_entries (action object_name : String) (filter : JSOpt (List Triple))
    (params : JSOpt (Obj Val)) (field_names : JSOpt (List String)) (last : JSOpt Bool) :
    ((Query.init action object_name filter params field_names last).to_dict.action = action ∧
      (Query.init action object_name filter params field_names last).to_dict.object_name =
        object_name ∧
      (Query.init action object_name filter params field_names last).to_dict.filter =
        (if filter = .undefined then .null else filter) ∧
      (Query.init action object_name filter params field_names last).to_dict.params =
        (if params = .undefined then .null else params) ∧
      (Query.init action object_name filter params field_names last).to_dict.last =
        (if last = .undefined then .val false else last)) ∧
    ((Query.init "select" "node" .undefined .undefined .undefined .undefined).to_dict.action =
        "select" ∧
      (Query.init "select" "node" .undefined .undefined .undefined
        .undefined).to_dict.object_name = "node" ∧
      (Query.init "select" "node" .undefined .undefined .undefined .undefined).to_dict.filter =
        .null ∧
      (Query.init "select" "node" .undefined .undefined .undefined .undefined).to_dict.params =
        .null ∧
      (Query.init "select" "node" .undefined .undefined .undefined .undefined).to_dict.last =
        .val false) := by
  refine ⟨⟨rfl, rfl, ?_, ?_, ?_⟩, rfl, rfl, rfl, rfl, rfl⟩
  · cases filter <;> simp [Query.init, Query.to_dict, JSOpt.orDefault]
  · cases params <;> simp [Query.init, Query.to_dict, JSOpt.orDefault]
  · cases last <;> simp [Query.init, Query.to_dict, JSOpt.orDefault]

/-- C8 fails on the code: `to_dict` reads `this._fields`, which `init` never assigns (it
    assigns `_field_names`), so the 'fields' entry is undefined whatever projection the
    Query was constructed with; for the projection `["id"]` it differs from the argument. -/
theorem to_dict_fields_undefined :
    (∀ (action object_name : String) (filter : JSOpt (List Triple)) (params : JSOpt (Obj Val))
        (field_names : JSOpt (List String)) (last : JSOpt Bool),
        (Query.init action object_name filter params field_names last).to_dict.fields =
          .undefined) ∧
      (Query.init "select" "node" .null .null (.val ["id"]) (.val false)).to_dict.fields ≠
        .val ["id"] := by
  refine ⟨fun _ _ _ _ _ _ => rfl, ?_⟩
  decide

/-! ## Entity registry -/

/-- The fold of `on_insert_channel` appends the edge objects and touches neither the
    pending nodes nor the log. -/
theorem foldl_push_edges (edges : List EdgeMut) (cap : Option Val) (s : Network) :
    (edges.foldl
        (fun s edgeu =>
          { s with
            _pending_edges := s._pending_edges ++ [edgeu]
            _edgesInfo := s._edgesInfo.set edgeu.id.toKey cap })
        s)._pending_edges = s._pending_edges ++ edges ∧
      (edges.foldl
        (fun s edgeu =>
          { s with
            _pending_edges := s._pending_edges ++ [edgeu]
            _edgesInfo := s._edgesInfo.set edgeu.id.toKey cap })
        s)._pending_nodes = s._pending_nodes ∧
      (edges.foldl
        (fun s edgeu =>
          { s with
            _pending_edges := s._pending_edges ++ [edgeu]
            _edgesInfo := s._edgesInfo.set edgeu.id.toKey cap })
        s).log = s.log := by
  induction edges generalizing s with
  | nil => simp
  | cons e rest ih =>
    simp only [List.foldl_cons]
    obtain ⟨h1, h2, h3⟩ := ih
      { s with
        _pending_edges := s._pending_edges ++ [e]
        _edgesInfo := s._edgesInfo.set e.id.toKey cap }
    exact ⟨by rw [h1]; simp, h2, h3⟩

/-- Every handler only appends to the pending node sequence. -/
theorem handle_pending_nodes (s : Network) (e : Event) :
    (s.handle e)._pending_nodes = s._pending_nodes ++ s.appended_nodes e := by
  have hex : ∃ suffix, (s.handle e)._pending_nodes = s._pending_nodes ++ suffix := by
    cases e with
    | insert_node q => exact ⟨[], by simp [Network.handle, Network.on_insert_node]⟩
    | update_node q =>
      simp only [Network.handle, Network.on_update_node]
      cases (filter_dict q.filter).get "id" with
      | none =>
        cases (filter_dict q.filter).get "name" with
        | none => exact ⟨[], by simp⟩
        | some nm => exact ⟨_, rfl⟩
      | some v => exact ⟨_, rfl⟩
    | insert_channel d =>
      exact ⟨[], by simp [Network.handle, Network.on_insert_channel, (foldl_push_edges _ _ s).2.1]⟩
    | update_channel q =>
      simp only [Network.handle, Network.on_update_channel]
      cases q.bw_upstream with
      | none => exact ⟨[], by simp⟩
      | some up =>
        cases q.filter with
        | nil => exact ⟨[], by simp⟩
        | cons first rest => exact ⟨[], by simp⟩
  obtain ⟨suffix, hs⟩ := hex
  simp [Network.appended_nodes, hs]

/-- Every handler only appends to the pending edge sequence. -/
theorem handle_pending_edges (s : Network) (e : Event) :
    (s.handle e)._pending_edges = s._pending_edges ++ s.appended_edges e := by
  have hex : ∃ suffix, (s.handle e)._pending_edges = s._pending_edges ++ suffix := by
    cases e with
    | insert_node q => exact ⟨[], by simp [Network.handle, Network.on_insert_node]⟩
    | update_node q =>
      simp only [Network.handle, Network.on_update_node]
      cases (filter_dict q.filter).get "id" with
      | none =>
        cases (filter_dict q.filter).get "name" with
        | none => exact ⟨[], by simp⟩
        | some nm => exact ⟨[], by simp⟩
      | some v => exact ⟨[], by simp⟩
    | insert_channel d =>
      exact ⟨_, by simp only [Network.handle, Network.on_insert_channel]
                   exact (foldl_push_edges _ _ s).1⟩
    | update_channel q =>
      simp only [Network.handle, Network.on_update_channel]
      cases q.bw_upstream with
      | none => exact ⟨[], by simp⟩
      | some up =>
        cases q.filter with
        | nil => exact ⟨[], by simp⟩
        | cons first rest => exact ⟨_, rfl⟩
  obtain ⟨suffix, hs⟩ := hex
  simp [Network.appended_edges, hs]

/-- No handler calls `update` on a data set: what a handler adds to the log holds no
    batch call. -/
theorem handle_log (s : Network) (e : Event) :
    ∃ extra, (s.handle e).log = s.log ++ extra ∧ extra.filter Effect.is_batch = [] := by
  cases e with
  | insert_node q =>
    simp only [Network.handle, Network.on_insert_node]
    by_cases hg : q.params.groups.length > 0 <;> by_cases hl : q.last = true
    · exact ⟨_, by simp only [hg, hl, if_true, List.append_assoc]; rfl, by simp [Effect.is_batch]⟩
    · exact ⟨_, by simp only [hg, hl, if_true, if_false]; rfl, by simp [Effect.is_batch]⟩
    · exact ⟨_, by simp only [hg, hl, if_true, if_false]; rfl, by simp [Effect.is_batch]⟩
    · exact ⟨[], by simp [hg, hl], by simp⟩
  | update_node q =>
    simp only [Network.handle, Network.on_update_node]
    cases (filter_dict q.filter).get "id" with
    | none =>
      cases (filter_dict q.filter).get "name" with
      | none => exact ⟨_, rfl, by simp [Effect.is_batch]⟩
      | some nm => exact ⟨[], by simp, by simp⟩
    | some v => exact ⟨[], by simp, by simp⟩
  | insert_channel d =>
    exact ⟨[], by simp [Network.handle, Network.on_insert_channel, (foldl_push_edges _ _ s).2.2],
      by simp⟩
  | update_channel q =>
    simp only [Network.handle, Network.on_update_channel]
    cases q.bw_upstream with
    | none => exact ⟨[], by simp, by simp⟩
    | some up =>
      cases q.filter with
      | nil => exact ⟨[], by simp, by simp⟩
      | cons first rest => exact ⟨[], by simp, by simp⟩

/-- The pending sequences and the log after a sequence of frames. -/
theorem foldl_handle_pending (es : List Event) (s : Network) :
    (es.foldl Network.handle s)._pending_nodes = s._pending_nodes ++ s.enqueued_nodes es ∧
      (es.foldl Network.handle s)._pending_edges = s._pending_edges ++ s.enqueued_edges es ∧
      ∃ extra, (es.foldl Network.handle s).log = s.log ++ extra ∧
        extra.filter Effect.is_batch = [] := by
  induction es generalizing s with
  | nil => exact ⟨by simp [Network.enqueued_nodes], by simp [Network.enqueued_edges], [], by simp⟩
  | cons e rest ih =>
    obtain ⟨hn, he, extra, hlog, hextra⟩ := ih (s.handle e)
    obtain ⟨extra0, hlog0, hextra0⟩ := handle_log s e
    simp only [List.foldl_cons]
    refine ⟨?_, ?_, extra0 ++ extra, ?_, ?_⟩
    · rw [hn, handle_pending_nodes, List.append_assoc]
      rfl
    · rw [he, handle_pending_edges, List.append_assoc]
      rfl
    · rw [hlog, hlog0, List.append_assoc]
    · rw [List.filter_append, hextra0, hextra, List.append_nil]

/-- C6: let frames be handled after a flush, and `_tick` be called.  Every handler only
    appends to the pending sequences; of the calls logged since the prior flush, the batch
    calls are exactly one `edges.update` on the edge mutations enqueued since then, in
    enqueue order, followed by one `nodes.update` on the node mutations enqueued since
    then, in enqueue order, nothing merged and nothing dropped; and both pending sequences
    are empty afterwards. -/
theorem tick_flushes_enqueued (self : Network) (es : List Event) :
    (∀ (s : Network) (e : Event),
        (s.handle e)._pending_edges = s._pending_edges ++ s.appended_edges e ∧
          (s.handle e)._pending_nodes = s._pending_nodes ++ s.appended_nodes e) ∧
      (((es.foldl Network.handle self._tick)._tick.log.drop self._tick.log.length).filter
          Effect.is_batch =
        [.edges_update (self._tick.enqueued_edges es),
          .nodes_update (self._tick.enqueued_nodes es)]) ∧
      (es.foldl Network.handle self._tick)._tick.log =
        (es.foldl Network.handle self._tick).log ++
          [.edges_update (self._tick.enqueued_edges es),
            .nodes_update (self._tick.enqueued_nodes es)] ∧
      (es.foldl Network.handle self._tick)._tick._pending_edges = [] ∧
      (es.foldl Network.handle self._tick)._tick._pending_nodes = [] := by
  obtain ⟨hn, he, extra, hlog, hextra⟩ := foldl_handle_pending es self._tick
  have hn0 : self._tick._pending_nodes = [] := rfl
  have he0 : self._tick._pending_edges = [] := rfl
  rw [hn0, List.nil_append] at hn
  rw [he0, List.nil_append] at he
  have hlog2 : (es.foldl Network.handle self._tick)._tick.log =
      (es.foldl Network.handle self._tick).log ++
        [.edges_update (self._tick.enqueued_edges es),
          .nodes_update (self._tick.enqueued_nodes es)] := by
    rw [← hn, ← he]
    rfl
  refine ⟨fun s e => ⟨handle_pending_edges s e, handle_pending_nodes s e⟩, ?_, hlog2, rfl, rfl⟩
  rw [hlog2, hlog, List.append_assoc, List.drop_left, List.filter_append, hextra]
  simp [Effect.is_batch]

/-- What `on_insert_channel` appends is the list of edge objects it builds. -/
theorem appended_edges_insert_channel (s : Network) (d : InsertChannelParams) :
    s.appended_edges (.insert_channel d) = s.on_insert_channel_edges d := by
  simp [Network.appended_edges, Network.handle, Network.on_insert_channel,
    (foldl_push_edges _ _ s).1]

/-- C6 on a concrete feed after a flush: two updates of node 1 and one rate update of
    channel 10.  The flush makes one `edges.update` call with the channel mutation and
    one `nodes.update` call with both node mutations, equal ids kept apart. -/
theorem tick_flushes_enqueued_witness :
    ((List.foldl Network.handle Network.init._tick
          [.update_node ⟨"server", [⟨"id", "==", .num 1⟩]⟩,
            .update_channel ⟨some (.num 5), some (.num 6), [⟨"id", "==", .num 10⟩]⟩,
            .update_node ⟨"router", [⟨"id", "==", .num 1⟩]⟩])._tick.log.drop
        Network.init._tick.log.length).filter Effect.is_batch =
      [.edges_update [⟨.num 10, none, none, .rate (.num 5) (some (.num 6))⟩],
        .nodes_update [⟨some (.num 1), "img/server.png"⟩, ⟨some (.num 1), "img/router.png"⟩]] :=
  ((tick_flushes_enqueued Network.init
      [.update_node ⟨"server", [⟨"id", "==", .num 1⟩]⟩,
        .update_channel ⟨some (.num 5), some (.num 6), [⟨"id", "==", .num 10⟩]⟩,
        .update_node ⟨"router", [⟨"id", "==", .num 1⟩]⟩]).2.1).trans (by decide)

/-! ## Transport -/

/-- Handler calls are neither `setTimeout` nor `ws.send` calls. -/
theorem filter_calls_nil {H P : Type} (l : List (H × Message (Option P))) (b : Bool) :
    ((l.map (fun c => (TEffect.call c.1 c.2 b : TEffect H P))).filter TEffect.is_setTimeout = []) ∧
      ((l.map (fun c => (TEffect.call c.1 c.2 b : TEffect H P))).filter TEffect.is_ws_send = []) := by
  induction l with
  | nil => simp
  | cons a rest ih => simp [TEffect.is_setTimeout, TEffect.is_ws_send, ih.1, ih.2]

/-- The trace and the fields after a close event. -/
theorem onclose_fields {H P : Type} (s : ServerEventsDispatcher H P) (sock : Nat) :
    (s.onclose sock).trace =
        s.trace ++
          (dispatch s.callbacks (⟨"delete", "local.connection", none⟩ : Message (Option P))).map
            (fun c => TEffect.call c.1 c.2 false) ++
          [.setTimeout s.next_handle self_timeoutInterval] ∧
      (s.onclose sock).is_open = false ∧
      (s.onclose sock).timeout = some s.next_handle ∧
      (s.onclose sock).pending = s.pending ++ [s.next_handle] ∧
      (s.onclose sock).live = s.live.filter (fun x => x ≠ sock) :=
  ⟨rfl, rfl, rfl, rfl, rfl⟩

/-- The trace and the fields after an open event. -/
theorem onopen_fields {H P : Type} (s : ServerEventsDispatcher H P) :
    s.onopen.trace =
        s.trace ++
          (match s.timeout with
            | none => []
            | some t => [.clearTimeout t]) ++
          (dispatch s.callbacks (⟨"insert", "local.connection", none⟩ : Message (Option P))).map
            (fun c => TEffect.call c.1 c.2 true) ∧
      s.onopen.is_open = true ∧
      s.onopen.timeout = s.timeout ∧
      s.onopen.pending =
        (match s.timeout with
          | none => s.pending
          | some t => s.pending.filter (fun x => x ≠ t)) ∧
      s.onopen.live = s.live := by
  cases h : s.timeout <;>
    simp [ServerEventsDispatcher.onopen, ServerEventsDispatcher.dispatch, h]

/-- C13 fails on the code: a close event schedules exactly one timer, and the delay it
    passes is `self.timeoutInterval`, which is undefined (the interval is the local
    variable `timeoutInterval = 2`, commented as seconds): the delay is not 2 seconds. -/
theorem onclose_delay_undefined {H P : Type} (s : ServerEventsDispatcher H P) (sock : Nat) :
    ((s.onclose sock).trace.drop s.trace.length).filter TEffect.is_setTimeout =
        [.setTimeout s.next_handle self_timeoutInterval] ∧
      self_timeoutInterval = none ∧
      self_timeoutInterval ≠ some (1000 * timeoutInterval) := by
  refine ⟨?_, rfl, by decide⟩
  rw [(onclose_fields s sock).1, List.append_assoc, List.drop_left, List.filter_append,
    (filter_calls_nil _ false).1]
  simp [TEffect.is_setTimeout]

/-- C14 as stated fails: after two calls of `open()` on a fresh dispatcher, the close of
    sockets 1 and 2 schedules timers 4 and 5, `timeout` holding 5 only; the open event of
    socket 3 clears timer 5 and timer 4 is still pending. -/
theorem onopen_leaves_timer_counterexample :
    ¬ (∀ (evs : List (TransportEvent Nat Unit)) (sock : Nat)
        (s : ServerEventsDispatcher Nat Unit),
        (ServerEventsDispatcher.construct Nat Unit).run (evs ++ [.ws_onopen sock]) = some s →
          s.pending = []) := by
  intro hall
  have h := hall [.call_open, .call_open, .ws_onclose 1, .ws_onclose 2] 3 _ rfl
  exact absurd h (by decide)

/-- C14, amended: on a close event the handlers of ("delete", "local.connection") are
    called with `is_open` already false, and the timer is set after the last of them; on
    an open event the timer held in `timeout` (the one scheduled last) is cleared first,
    `is_open` is true when the handlers of ("insert", "local.connection") are called, the
    cleared timer is no longer pending, and no timer is pending when the pending timers
    were the one held. -/
theorem connectivity_order {H P : Type} (s : ServerEventsDispatcher H P) (sock : Nat) :
    ((s.onclose sock).trace =
        s.trace ++
          (dispatch s.callbacks (⟨"delete", "local.connection", none⟩ : Message (Option P))).map
            (fun c => TEffect.call c.1 c.2 false) ++
          [.setTimeout s.next_handle self_timeoutInterval] ∧
      (s.onclose sock).is_open = false) ∧
    (s.onopen.trace =
        s.trace ++
          (match s.timeout with
            | none => []
            | some t => [.clearTimeout t]) ++
          (dispatch s.callbacks (⟨"insert", "local.connection", none⟩ : Message (Option P))).map
            (fun c => TEffect.call c.1 c.2 true) ∧
      s.onopen.is_open = true ∧
      (∀ t, s.timeout = some t → t ∉ s.onopen.pending) ∧
      ((∀ x ∈ s.pending, s.timeout = some x) → s.onopen.pending = [])) := by
  obtain ⟨htrace, hopen, -, hpend, -⟩ := onopen_fields s
  refine ⟨⟨(onclose_fields s sock).1, rfl⟩, htrace, hopen, ?_, ?_⟩
  · intro t ht
    rw [hpend, ht]
    simp
  · intro hheld
    rw [hpend]
    cases ht : s.timeout with
    | none =>
      cases hp : s.pending with
      | nil => rfl
      | cons x rest =>
        have := hheld x (by rw [hp]; exact List.mem_cons_self _ _)
        rw [ht] at this
        exact absurd this (by simp)
    | some t =>
      simp only [List.filter_eq_nil_iff]
      intro x hx
      have := hheld x hx
      rw [ht] at this
      injection this with this
      simp [this]

/-- C14, amended, on a dispatcher with one handler per connectivity event: the close of socket 1
    calls handler 7 with `is_open` false and then sets timer 2; the open event that
    follows clears timer 2 and calls handler 8 with `is_open` true. -/
theorem connectivity_order_witness :
    ((((ServerEventsDispatcher.construct Nat Unit).bind "delete" "local.connection" 7).bind
        "insert" "local.connection" 8).onclose 1).trace =
      [.new_WebSocket 1, .call 7 ⟨"delete", "local.connection", none⟩ false,
        .setTimeout 2 none] ∧
    (((((ServerEventsDispatcher.construct Nat Unit).bind "delete" "local.connection" 7).bind
        "insert" "local.connection" 8).onclose 1).open_).onopen.trace =
      [.new_WebSocket 1, .call 7 ⟨"delete", "local.connection", none⟩ false,
        .setTimeout 2 none, .new_WebSocket 3, .clearTimeout 2,
        .call 8 ⟨"insert", "local.connection", none⟩ true] ∧
    (((((ServerEventsDispatcher.construct Nat Unit).bind "delete" "local.connection" 7).bind
        "insert" "local.connection" 8).onclose 1).open_).onopen.pending = [] :=
  ⟨(connectivity_order
      (((ServerEventsDispatcher.construct Nat Unit).bind "delete" "local.connection" 7).bind
        "insert" "local.connection" 8) 1).1.1.trans (by decide),
    (connectivity_order
      (((((ServerEventsDispatcher.construct Nat Unit).bind "delete" "local.connection" 7).bind
        "insert" "local.connection" 8).onclose 1).open_) 1).2.1.trans (by decide),
    (connectivity_order
      (((((ServerEventsDispatcher.construct Nat Unit).bind "delete" "local.connection" 7).bind
        "insert" "local.connection" 8).onclose 1).open_) 1).2.2.2.2 (by decide)⟩

/-- The search succeeds exactly when `search` starts at some position of what remains. -/
theorem indexOf_from_isSome (search l : List Char) (k : Nat) :
    (indexOf_from search l k).isSome = true ↔ ∃ t, t <:+ l ∧ search <+: t := by
  induction l generalizing k with
  | nil =>
    simp only [indexOf_from]
    constructor
    · intro h
      split at h
      · rename_i hs
        exact ⟨[], List.suffix_refl _, by rw [hs]⟩
      · exact absurd h (by simp)
    · rintro ⟨t, ht, hp⟩
      have ht0 : t = [] := List.suffix_nil.1 ht
      rw [ht0] at hp
      have hs : search = [] := List.prefix_nil.1 hp
      simp [hs]
  | cons c rest ih =>
    simp only [indexOf_from]
    by_cases hpre : search.isPrefixOf (c :: rest) = true
    · simp only [hpre, if_true, Option.isSome_some, true_iff]
      exact ⟨c :: rest, List.suffix_refl _, List.isPrefixOf_iff_prefix.1 hpre⟩
    · have hpre2 : search.isPrefixOf (c :: rest) = false := Bool.eq_false_iff.2 hpre
      rw [hpre2]
      simp only [Bool.false_eq_true, if_false]
      rw [ih]
      constructor
      · rintro ⟨t, ht, hp⟩
        exact ⟨t, ht.trans (List.suffix_cons c rest), hp⟩
      · rintro ⟨t, ht, hp⟩
        rcases List.suffix_cons_iff.1 ht with h | h
        · rw [h] at hp
          exact absurd (List.isPrefixOf_iff_prefix.2 hp) hpre
        · exact ⟨t, h, hp⟩

/-- `endsWith` is the success of the search from `length - suffix.length`, clamped at 0. -/
theorem endsWith_eq_isSome (s x : String) :
    endsWith s x =
      (indexOf_from x.data (s.data.drop (s.data.length - x.data.length))
        (s.data.length - x.data.length)).isSome := by
  have hstart : (min (max ((s.length : Int) - (x.length : Int)) 0) (s.length : Int)).toNat =
      s.data.length - x.data.length := by
    have h1 : s.length = s.data.length := rfl
    have h2 : x.length = x.data.length := rfl
    omega
  simp only [endsWith, String_indexOf, hstart]
  cases indexOf_from x.data (s.data.drop (s.data.length - x.data.length))
      (s.data.length - x.data.length) with
  | none => simp
  | some k =>
    simp only [Option.isSome_some, bne_iff_ne, ne_eq]
    omega

/-- C20: `endsWith` returns true exactly when its argument is a suffix of the string; it
    returns false for an argument longer than the string and true for the empty one. -/
theorem endsWith_iff_suffix (s x : String) :
    (endsWith s x = true ↔ x.data <:+ s.data) ∧
      (s.length < x.length → endsWith s x = false) ∧
      endsWith s "" = true := by
  have hmain : ∀ y : String, endsWith s y = true ↔ y.data <:+ s.data := by
    intro y
    rw [endsWith_eq_isSome, indexOf_from_isSome]
    constructor
    · rintro ⟨t, ht, hp⟩
      have hdrop : (s.data.drop (s.data.length - y.data.length)).length ≤ y.data.length := by
        rw [List.length_drop]
        omega
      have hlt : t.length ≤ y.data.length := Nat.le_trans ht.length_le hdrop
      have hyt : y.data = t := hp.eq_of_length_le hlt
      rw [hyt]
      exact ht.trans (List.drop_suffix _ _)
    · intro hsuf
      refine ⟨y.data, ?_, List.prefix_refl _⟩
      obtain ⟨pre, hpre⟩ := hsuf
      have hlen : s.data.length - y.data.length = pre.length := by
        rw [← hpre, List.length_append]
        omega
      rw [hlen, ← hpre, List.drop_left]
  refine ⟨hmain x, ?_, (hmain "").2 List.nil_suffix⟩
  intro hlt
  cases hends : endsWith s x with
  | false => rfl
  | true =>
    have hle := ((hmain x).1 hends).length_le
    have h1 : s.length = s.data.length := rfl
    have h2 : x.length = x.data.length := rfl
    omega

/-- C20 on "hello": "llo" is a suffix, "hell" is not, "say hello" is longer. -/
theorem endsWith_iff_suffix_witness :
    endsWith "hello" "llo" = true ∧ endsWith "hello" "hell" = false ∧
      endsWith "hello" "say hello" = false ∧ endsWith "hello" "" = true :=
  ⟨(endsWith_iff_suffix "hello" "llo").1.2 (by decide), by decide,
    (endsWith_iff_suffix "hello" "say hello").2.1 (by decide),
    (endsWith_iff_suffix "hello" "").2.2⟩

/-! ## utils.js : htmlEscaped -/

/-- A value read from a dictionary is one of its values. -/
theorem Obj.get_mem_values {α : Type} (o : Obj α) (k : String) (v : α)
    (h : o.get k = some v) : v ∈ o.map Prod.snd := by
  induction o with
  | nil => simp [Obj.get] at h
  | cons p rest ih =>
    obtain ⟨k2, v2⟩ := p
    simp only [Obj.get] at h
    split at h
    · injection h with h
      simp [h]
    · simp [ih h]

/-- CR and LF are not in the table. -/
theorem newLine_not_named (ch : Char) (h : isNewLine ch = true) :
    namedHtml.get (toString ch.toNat) = none := by
  simp only [isNewLine, Bool.or_eq_true, decide_eq_true_eq] at h
  rcases h with h | h <;> rw [h] <;> decide

/-- The loop of `htmlEscaped`, from any state, appends the pieces of what is left of the
    input; after a CR/LF the rest of the run contributes nothing. -/
theorem foldl_htmlEscaped_step (l : List Char) (acc : String) (w : Nat) :
    (l.foldl htmlEscaped_step (acc, w)).1 =
      acc ++ render (if w = 0 then htmlPieces l else htmlPieces (l.dropWhile isNewLine)) := by
  induction l generalizing acc w with
  | nil =>
    have h0 : htmlPieces [] = [] := by rw [htmlPieces]
    simp [h0, render]
  | cons ch rest ih =>
    simp only [List.foldl_cons]
    by_cases hnl : isNewLine ch = true
    · have hnone := newLine_not_named ch hnl
      have hc : ch.toNat = 13 ∨ ch.toNat = 10 := by
        simpa [isNewLine] using hnl
      have hstep : htmlEscaped_step (acc, w) ch =
          (if w = 0 then acc ++ "<br>" else acc, w + 1) := by
        simp only [htmlEscaped_step, hnone, hc, if_true]
      rw [hstep, ih]
      simp only [Nat.succ_ne_zero, if_false]
      by_cases hw : w = 0
      · have hp : htmlPieces (ch :: rest) =
            .br :: htmlPieces (rest.dropWhile isNewLine) := by
          rw [htmlPieces]
          simp [hnl]
        simp only [hw, if_true, hp, render, Piece.text, String.append_assoc]
      · simp only [hw, if_false, List.dropWhile_cons, hnl, if_true]
    · have hc : ¬ (ch.toNat = 13 ∨ ch.toNat = 10) := by
        simpa [isNewLine] using hnl
      have hdrop : (ch :: rest).dropWhile isNewLine = ch :: rest := by
        simp [List.dropWhile_cons, hnl]
      have hsame : (if w = 0 then htmlPieces (ch :: rest)
          else htmlPieces ((ch :: rest).dropWhile isNewLine)) = htmlPieces (ch :: rest) := by
        rw [hdrop]
        simp
      rw [hsame]
      cases hget : namedHtml.get (toString ch.toNat) with
      | some es =>
        have hstep : htmlEscaped_step (acc, w) ch = (acc ++ es, 0) := by
          simp only [htmlEscaped_step, hget]
        have hp : htmlPieces (ch :: rest) = .entity es :: htmlPieces rest := by
          rw [htmlPieces]
          simp [hnl, hget]
        rw [hstep, ih, hp]
        simp only [if_true, render, Piece.text, String.append_assoc]
      | none =>
        have hstep : htmlEscaped_step (acc, w) ch = (acc ++ String.singleton ch, 0) := by
          simp only [htmlEscaped_step, hget, hc, if_false]
        have hp : htmlPieces (ch :: rest) = .plain ch :: htmlPieces rest := by
          rw [htmlPieces]
          simp [hnl, hget]
        rw [hstep, ih, hp]
        simp only [if_true, render, Piece.text, String.append_assoc]

/-- The output of `htmlEscaped` is the text of the pieces of its input. -/
theorem htmlEscaped_eq_render (s : String) : htmlEscaped s = render (htmlPieces s.data) := by
  unfold htmlEscaped
  split
  · rename_i h
    rw [h]
    have h0 : htmlPieces ("" : String).data = [] := by
      show htmlPieces [] = []
      rw [htmlPieces]
    rw [h0]
    rfl
  · rw [foldl_htmlEscaped_step]
    simp

/-- Every piece is a "<br>", an entity of the table or an ordinary character. -/
theorem htmlPieces_good (l : List Char) : ∀ p ∈ htmlPieces l, p.good := by
  induction l using htmlPieces.induct with
  | case1 =>
    intro p hp
    rw [htmlPieces] at hp
    simp at hp
  | case2 ch rest hnl ih =>
    intro p hp
    have hpieces : htmlPieces (ch :: rest) = .br :: htmlPieces (rest.dropWhile isNewLine) := by
      rw [htmlPieces]
      simp [hnl]
    rw [hpieces] at hp
    rcases List.mem_cons.1 hp with hp | hp
    · rw [hp]
      trivial
    · exact ih p hp
  | case3 ch rest hnl es hget ih =>
    intro p hp
    have hpieces : htmlPieces (ch :: rest) = .entity es :: htmlPieces rest := by
      rw [htmlPieces]
      simp [hnl, hget]
    rw [hpieces] at hp
    rcases List.mem_cons.1 hp with hp | hp
    · rw [hp]
      exact Obj.get_mem_values _ _ _ hget
    · exact ih p hp
  | case4 ch rest hnl hget ih =>
    intro p hp
    have hpieces : htmlPieces (ch :: rest) = .plain ch :: htmlPieces rest := by
      rw [htmlPieces]
      simp [hnl, hget]
    rw [hpieces] at hp
    rcases List.mem_cons.1 hp with hp | hp
    · rw [hp]
      refine ⟨?_, ?_, ?_, ?_, by simpa using hnl⟩
      · intro h
        rw [h] at hget
        exact absurd hget (by decide)
      · intro h
        rw [h] at hget
        exact absurd hget (by decide)
      · intro h
        rw [h] at hget
        exact absurd hget (by decide)
      · intro h
        rw [h] at hget
        exact absurd hget (by decide)
    · exact ih p hp

/-- The entities of the table: no double quote, no '<', no '>', and one '&', in front. -/
theorem named_entities_chars :
    ∀ es ∈ namedHtml.map Prod.snd,
      '"' ∉ es.data ∧ es.data.count '<' = 0 ∧ es.data.count '>' = 0 ∧
        es.data.count '&' = 1 ∧ es.data.head? = some '&' := by
  decide

/-- The characters of the text of one piece. -/
theorem good_text_chars (p : Piece) (h : p.good) :
    '"' ∉ p.text.data ∧
      p.text.data.count '<' = (if p = .br then 1 else 0) ∧
      p.text.data.count '>' = (if p = .br then 1 else 0) ∧
      p.text.data.count '&' = (if p.is_entity = true then 1 else 0) := by
  cases p with
  | br => exact ⟨by decide, by decide, by decide, by decide⟩
  | entity es =>
    obtain ⟨h1, h2, h3, h4, -⟩ := named_entities_chars es h
    exact ⟨h1, by simpa using h2, by simpa using h3, by simpa [Piece.is_entity] using h4⟩
  | plain ch =>
    obtain ⟨hq, hlt, hgt, hamp, -⟩ := h
    have hd : (Piece.plain ch).text.data = [ch] := rfl
    rw [hd]
    refine ⟨?_, ?_, ?_, ?_⟩
    · simp only [List.mem_singleton]
      exact fun h => hq h.symm
    · simp [List.count_cons, hlt]
    · simp [List.count_cons, hgt]
    · simp [List.count_cons, hamp, Piece.is_entity]

/-- The characters of the text of a list of pieces. -/
theorem render_chars (ps : List Piece) (h : ∀ p ∈ ps, p.good) :
    '"' ∉ (render ps).data ∧
      (render ps).data.count '<' = ps.count .br ∧
      (render ps).data.count '>' = ps.count .br ∧
      (render ps).data.count '&' = ps.countP Piece.is_entity := by
  induction ps with
  | nil => exact ⟨by simp [render], by simp [render], by simp [render], by simp [render]⟩
  | cons p rest ih =>
    obtain ⟨i1, i2, i3, i4⟩ := ih (fun q hq => h q (List.mem_cons_of_mem _ hq))
    obtain ⟨g1, g2, g3, g4⟩ := good_text_chars p (h p (List.mem_cons_self _ _))
    have hd : (render (p :: rest)).data = p.text.data ++ (render rest).data := by
      simp [render, String.data_append]
    rw [hd]
    refine ⟨?_, ?_, ?_, ?_⟩
    · simp only [List.mem_append, not_or]
      exact ⟨g1, i1⟩
    · rw [List.count_append, g2, i2, List.count_cons]
      by_cases hp : p = .br <;> simp [hp]
      omega
    · rw [List.count_append, g3, i3, List.count_cons]
      by_cases hp : p = .br <;> simp [hp]
      omega
    · rw [List.count_append, g4, i4, List.countP_cons]
      by_cases hp : p.is_entity = true <;> simp [hp]
      omega

/-- Dropping a run that the filter rejects does not change what the filter keeps. -/
theorem filter_dropWhile_newLine (l : List Char) :
    (l.dropWhile isNewLine).filter isOrdinary = l.filter isOrdinary := by
  induction l with
  | nil => rfl
  | cons ch rest ih =>
    by_cases hnl : isNewLine ch = true
    · have hord : isOrdinary ch = false := by simp [isOrdinary, hnl]
      simp [List.dropWhile_cons, hnl, List.filter_cons, hord, ih]
    · simp [List.dropWhile_cons, hnl]

/-- The copied characters are the ordinary characters of the input, in order. -/
theorem htmlPieces_plain (l : List Char) :
    (htmlPieces l).filterMap Piece.plain_char = l.filter isOrdinary := by
  induction l using htmlPieces.induct with
  | case1 =>
    rw [htmlPieces]
    rfl
  | case2 ch rest hnl ih =>
    have hpieces : htmlPieces (ch :: rest) = .br :: htmlPieces (rest.dropWhile isNewLine) := by
      rw [htmlPieces]
      simp [hnl]
    have hord : isOrdinary ch = false := by simp [isOrdinary, hnl]
    rw [hpieces, List.filterMap_cons]
    simp only [Piece.plain_char]
    rw [ih, filter_dropWhile_newLine, List.filter_cons, hord]
    simp
  | case3 ch rest hnl es hget ih =>
    have hpieces : htmlPieces (ch :: rest) = .entity es :: htmlPieces rest := by
      rw [htmlPieces]
      simp [hnl, hget]
    have hord : isOrdinary ch = false := by simp [isOrdinary, hget]
    rw [hpieces, List.filterMap_cons]
    simp only [Piece.plain_char]
    rw [ih, List.filter_cons, hord]
    simp
  | case4 ch rest hnl hget ih =>
    have hpieces : htmlPieces (ch :: rest) = .plain ch :: htmlPieces rest := by
      rw [htmlPieces]
      simp [hnl, hget]
    have hord : isOrdinary ch = true := by simp [isOrdinary, hnl, hget]
    rw [hpieces, List.filterMap_cons]
    simp only [Piece.plain_char]
    rw [ih, List.filter_cons, hord]
    simp

/-- C19: the output of `htmlEscaped(s)` is the text of the pieces of s, where each maximal
    run of CR/LF characters gives one "<br>", each character of the table its entity, and
    every other character itself, in order.  The output has no double quote, as many '<'
    and as many '>' as inserted "<br>", as many '&' as inserted entities, each of which
    starts with its '&'; and the empty string gives the empty string. -/
theorem htmlEscaped_spec (s : String) :
    htmlEscaped s = render (htmlPieces s.data) ∧
      (∀ p ∈ htmlPieces s.data, p.good) ∧
      (htmlPieces s.data).filterMap Piece.plain_char = s.data.filter isOrdinary ∧
      '"' ∉ (htmlEscaped s).data ∧
      (htmlEscaped s).data.count '<' = (htmlPieces s.data).count .br ∧
      (htmlEscaped s).data.count '>' = (htmlPieces s.data).count .br ∧
      (htmlEscaped s).data.count '&' = (htmlPieces s.data).countP Piece.is_entity ∧
      (∀ es ∈ namedHtml.map Prod.snd, es.data.head? = some '&') ∧
      htmlEscaped "" = "" := by
  obtain ⟨c1, c2, c3, c4⟩ := render_chars (htmlPieces s.data) (htmlPieces_good s.data)
  rw [htmlEscaped_eq_render]
  exact ⟨rfl, htmlPieces_good s.data, htmlPieces_plain s.data, c1, c2, c3, c4,
    fun es hes => (named_entities_chars es hes).2.2.2.2, rfl⟩

/-- C19 on the string `a<b>`, CR, LF, CR, `"x"&`, LF: two runs give two "<br>", the
    output has no double quote and two '<' and two '>' outside entities. -/
theorem htmlEscaped_spec_witness :
    htmlEscaped "a<b>\r\n\r\"x\"&\n" = "a&lt;b&gt;<br>&quot;x&quot;&amp;<br>" ∧
      '"' ∉ (htmlEscaped "a<b>\r\n\r\"x\"&\n").data ∧
      (htmlEscaped "a<b>\r\n\r\"x\"&\n").data.count '<' = 2 :=
  ⟨by decide, (htmlEscaped_spec "a<b>\r\n\r\"x\"&\n").2.2.2.1, by decide⟩

end Cicn
